import Mathlib

/-!
Verification of the HopeLink care-scheduling subsystem.

The repository ships the database schema (`src/database/schema.sql`), the
service worker (`src/frontend/sw.js`) and deployment material; the
care-scheduling core (conflict detector, sync state machine, sync engine,
cancellation watcher) is specified in `spec.md` but its implementation is not
part of the source tree.  Definitions below that embed that missing core are
marked `Modelled from the spec:`; the remaining definitions embed the schema
constraints, the row-level-security policies and the service-worker fetch
handler directly from the source files.

Time instants are modelled as natural numbers (minutes); a day is 1440
minutes.
-/

namespace HopeLink

/-- Modelled from the spec: the six per-schedule sync states of the Sync
State Machine (§4.2); the schema itself stores only `google_event_id` and
`is_synced` (schema.sql lines 96-97). -/
inductive SyncStatus where
  | unsynced
  | pending_push
  | synced
  | pending_pull
  | conflicted
  | sync_failed
deriving DecidableEq, Repr

/-- The four schedule categories of `care_schedules.schedule_type`
(schema.sql line 80). -/
inductive ScheduleType where
  | hospital
  | rehabilitation
  | therapy
  | checkup
deriving DecidableEq, Repr

/-- One entry of the `care_schedules.checklist` JSONB array
(schema.sql line 93). -/
structure ChecklistItem where
  item : String
  checked : Bool
deriving DecidableEq, Repr

/-- A row of the `care_schedules` table (schema.sql lines 74-108),
restricted to the columns the care-scheduling subsystem reads or writes.
`sync_status` refines the schema's `is_synced` boolean into the six-state
machine of the spec. -/
structure Schedule where
  id : Nat
  child_id : Nat
  user_id : Nat
  title : String
  schedule_type : ScheduleType
  start_time : Nat
  end_time : Nat
  is_all_day : Bool
  location_name : String
  checklist : List ChecklistItem
  google_event_id : Option Nat
  sync_status : SyncStatus
  last_synced_at : Option Nat
  has_conflict : Bool
  conflict_with : List Nat
  reminder_minutes : List Int
  updated_at : Nat
deriving DecidableEq, Repr

/-- Minutes in one day. -/
def minutesPerDay : Nat := 1440

/-- Modelled from the spec: the calendar date of an all-day schedule, whose
interval spans the full day (§3). -/
def allDayDate (s : Schedule) : Nat := s.start_time / minutesPerDay

/-- Modelled from the spec: the Interval Model / Conflict Detector pair
predicate (§4.1).  Two schedules conflict iff their half-open intervals
overlap with an open intersection (touching endpoints do not conflict);
all-day entries conflict only with other all-day entries on the same date,
never with timed entries. -/
def schedulesConflict (a b : Schedule) : Bool :=
  if a.is_all_day || b.is_all_day then
    a.is_all_day && b.is_all_day && (allDayDate a == allDayDate b)
  else
    decide (a.start_time < b.end_time) && decide (b.start_time < a.end_time)

/-- Modelled from the spec: `detectConflicts(candidate,
existingSchedulesForChild) → conflictSet` (§4.1), a pairwise scan of the
existing set producing the ids of the schedules (for the same child, other
than the candidate itself) that conflict with the candidate. -/
def detectConflicts (cand : Schedule) (existing : List Schedule) : List Nat :=
  (existing.filter fun s =>
      s.id != cand.id && s.child_id == cand.child_id && schedulesConflict cand s).map
    (fun s => s.id)

theorem schedulesConflict_symm (a b : Schedule) :
    schedulesConflict a b = schedulesConflict b a := by
  unfold schedulesConflict
  rcases ha : a.is_all_day <;> rcases hb : b.is_all_day <;>
    simp [ha, hb, Bool.and_comm, eq_comm, And.comm]

theorem mem_detectConflicts (cand : Schedule) (existing : List Schedule) (i : Nat) :
    i ∈ detectConflicts cand existing ↔
      ∃ s ∈ existing, s.id = i ∧ s.id ≠ cand.id ∧ s.child_id = cand.child_id ∧
        schedulesConflict cand s = true := by
  unfold detectConflicts
  simp only [List.mem_map, List.mem_filter, Bool.and_eq_true, bne_iff_ne, beq_iff_eq]
  constructor
  · rintro ⟨s, ⟨hs, ⟨hne, hch⟩, hc⟩, rfl⟩
    exact ⟨s, hs, rfl, hne, hch, hc⟩
  · rintro ⟨s, hs, rfl, hne, hch, hc⟩
    exact ⟨s, ⟨hs, ⟨hne, hch⟩, hc⟩, rfl⟩

theorem detectConflicts_pair (a b : Schedule) (L : List Schedule)
    (hchild : b.child_id = a.child_id) (hid : b.id ≠ a.id)
    (hbL : b ∈ L) (huL : ∀ c ∈ L, c.id = b.id → c = b) :
    b.id ∈ detectConflicts a L ↔ schedulesConflict a b = true := by
  rw [mem_detectConflicts]
  constructor
  · rintro ⟨s, hs, hsid, -, -, hc⟩
    rwa [huL s hs hsid] at hc
  · intro hc
    exact ⟨b, hbL, rfl, hid, hchild, hc⟩

/-- C1: for two schedules `a`, `b` of the same child (with distinct ids,
ids unique in the relevant sets), `detectConflicts` reports `b` among the
conflicts of `a` iff the pair predicate holds; for timed pairs the predicate
is exactly open-intersection interval overlap (touching endpoints excluded),
an all-day entry never conflicts with a timed entry, two all-day entries
conflict iff they fall on the same date, and the conflict relation is
symmetric: `b` is in `a`'s conflict set iff `a` is in `b`'s. -/
theorem detectConflicts_correct (a b : Schedule) (L L' : List Schedule)
    (hchild : b.child_id = a.child_id) (hid : b.id ≠ a.id)
    (hbL : b ∈ L) (huL : ∀ c ∈ L, c.id = b.id → c = b)
    (haL : a ∈ L') (huL' : ∀ c ∈ L', c.id = a.id → c = a) :
    (b.id ∈ detectConflicts a L ↔ schedulesConflict a b = true)
    ∧ (a.is_all_day = false → b.is_all_day = false →
        (schedulesConflict a b = true ↔
          a.start_time < b.end_time ∧ b.start_time < a.end_time))
    ∧ (a.is_all_day = true → b.is_all_day = true →
        (schedulesConflict a b = true ↔ allDayDate a = allDayDate b))
    ∧ (a.is_all_day ≠ b.is_all_day → schedulesConflict a b = false)
    ∧ (b.id ∈ detectConflicts a L ↔ a.id ∈ detectConflicts b L') := by
  refine ⟨detectConflicts_pair a b L hchild hid hbL huL, ?_, ?_, ?_, ?_⟩
  · intro ha hb
    simp [schedulesConflict, ha, hb]
  · intro ha hb
    simp [schedulesConflict, ha, hb]
  · intro hab
    rcases ha : a.is_all_day <;> rcases hb : b.is_all_day <;>
      simp_all [schedulesConflict]
  · rw [detectConflicts_pair a b L hchild hid hbL huL,
      detectConflicts_pair b a L' hchild.symm (Ne.symm hid) haL huL',
      schedulesConflict_symm]

/-- A concrete timed schedule (10:00-11:00 in minutes of a day). -/
def schedA : Schedule :=
  { id := 1, child_id := 10, user_id := 20, title := "Rehab session",
    schedule_type := ScheduleType.rehabilitation, start_time := 600, end_time := 660,
    is_all_day := false, location_name := "Seoul Center", checklist := [],
    google_event_id := none, sync_status := SyncStatus.unsynced, last_synced_at := none,
    has_conflict := false, conflict_with := [], reminder_minutes := [1440, 60],
    updated_at := 0 }

/-- A concrete timed schedule (10:30-11:30) overlapping `schedA`. -/
def schedC : Schedule := { schedA with id := 3, start_time := 630, end_time := 690 }

/-- C1 witness: the spec's example pair (10:00-11:00 and 10:30-11:30, same
child) instantiates the theorem; `detectConflicts` reports the conflict and
it is symmetric. -/
theorem detectConflicts_correct_witness :
    (schedC.child_id = schedA.child_id ∧ schedC.id ≠ schedA.id ∧
      schedC ∈ [schedC] ∧ schedA ∈ [schedA])
    ∧ ((schedC.id ∈ detectConflicts schedA [schedC] ↔
          schedulesConflict schedA schedC = true)
        ∧ (schedA.is_all_day = false → schedC.is_all_day = false →
            (schedulesConflict schedA schedC = true ↔
              schedA.start_time < schedC.end_time ∧
                schedC.start_time < schedA.end_time))
        ∧ (schedA.is_all_day = true → schedC.is_all_day = true →
            (schedulesConflict schedA schedC = true ↔
              allDayDate schedA = allDayDate schedC))
        ∧ (schedA.is_all_day ≠ schedC.is_all_day →
            schedulesConflict schedA schedC = false)
        ∧ (schedC.id ∈ detectConflicts schedA [schedC] ↔
            schedA.id ∈ detectConflicts schedC [schedA])) :=
  ⟨⟨by decide, by decide, by decide, by decide⟩,
    detectConflicts_correct schedA schedC [schedC] [schedA]
      (by decide) (by decide) (by decide) (by decide) (by decide) (by decide)⟩

/-- Modelled from the spec: the error taxonomy (§7), restricted to the part
these claims exercise. -/
inductive AppError where
  | validationError
deriving DecidableEq, Repr

/-- Modelled from the spec: interval validation (§7): the interval is
well-formed when end is strictly after start or the all-day flag is set, and
every reminder offset is non-negative (§3 invariant). -/
def validSchedule (s : Schedule) : Bool :=
  (s.is_all_day || decide (s.start_time < s.end_time))
    && s.reminder_minutes.all fun m => decide (0 ≤ m)

/-- Modelled from the spec: the Conflict Detector's side effect on the
mutated schedule itself: sets `has_conflict` and the `conflict_with`
reference set (§4.1). -/
def annotateConflicts (s : Schedule) (conflicts : List Nat) : Schedule :=
  { s with has_conflict := !conflicts.isEmpty, conflict_with := conflicts }

/-- Modelled from the spec: the Conflict Detector's symmetric update on an
existing schedule `t` when schedule `sid` was recomputed with conflict set
`conflicts`: `sid` is removed from `t`'s references and re-added iff `t` is
in the new conflict set (§4.1). -/
def setSymmetricRef (sid : Nat) (conflicts : List Nat) (t : Schedule) : Schedule :=
  let without := t.conflict_with.filter fun i => i != sid
  let cw := if conflicts.contains t.id then sid :: without else without
  { t with has_conflict := !cw.isEmpty, conflict_with := cw }

/-- Modelled from the spec: `createSchedule` (§6): validation first
(`ValidationError` on a malformed interval, nothing persisted), then conflict
detection, then persistence of the annotated record; a locally created
schedule starts `unsynced` with no external event reference (§4.2). -/
def createSchedule (s : Schedule) (db : List Schedule) :
    Except AppError (List Schedule) :=
  if validSchedule s then
    let conflicts := detectConflicts s (db.filter fun t => t.child_id == s.child_id)
    let s1 := { annotateConflicts s conflicts with
                sync_status := SyncStatus.unsynced, google_event_id := none,
                last_synced_at := none }
    Except.ok ((db.map (setSymmetricRef s.id conflicts)) ++ [s1])
  else Except.error AppError.validationError

/-- Modelled from the spec: `updateSchedule` (§6): validation first, then
conflict recomputation against all other schedules of the child, then
persistence of the replacement record and the symmetric reference updates. -/
def updateSchedule (s : Schedule) (db : List Schedule) :
    Except AppError (List Schedule) :=
  if validSchedule s then
    let others := db.filter fun t => t.id != s.id
    let conflicts :=
      detectConflicts s (others.filter fun t => t.child_id == s.child_id)
    Except.ok ((others.map (setSymmetricRef s.id conflicts)) ++
      [annotateConflicts s conflicts])
  else Except.error AppError.validationError

/-- The persistence invariant of §3: end strictly after start unless all-day,
and non-negative reminder offsets. -/
def scheduleWellFormed (s : Schedule) : Prop :=
  (s.is_all_day = true ∨ s.start_time < s.end_time)
    ∧ ∀ m ∈ s.reminder_minutes, 0 ≤ m

theorem validSchedule_wellFormed (s : Schedule) (h : validSchedule s = true) :
    scheduleWellFormed s := by
  unfold validSchedule at h
  simp only [Bool.and_eq_true, Bool.or_eq_true, decide_eq_true_eq,
    List.all_eq_true] at h
  exact ⟨h.1, h.2⟩

theorem setSymmetricRef_wellFormed (sid : Nat) (conflicts : List Nat)
    (t : Schedule) (h : scheduleWellFormed t) :
    scheduleWellFormed (setSymmetricRef sid conflicts t) := by
  unfold setSymmetricRef
  split <;> exact h

theorem annotateConflicts_wellFormed (s : Schedule) (conflicts : List Nat)
    (h : scheduleWellFormed s) :
    scheduleWellFormed (annotateConflicts s conflicts) := h

/-- C2: a schedule whose interval is malformed (end at or before start and
not all-day) is rejected by both `createSchedule` and `updateSchedule` with
`ValidationError` and the stored set is untouched; and whenever either
mutation succeeds starting from a well-formed store, every persisted schedule
still satisfies end > start (or the all-day flag) with all reminder offsets
non-negative. -/
theorem schedule_validation (s : Schedule) (db db' : List Schedule)
    (hwf : ∀ t ∈ db, scheduleWellFormed t) :
    ((s.is_all_day = false ∧ s.end_time ≤ s.start_time) →
        createSchedule s db = Except.error AppError.validationError
        ∧ updateSchedule s db = Except.error AppError.validationError)
    ∧ (createSchedule s db = Except.ok db' → ∀ t ∈ db', scheduleWellFormed t)
    ∧ (updateSchedule s db = Except.ok db' → ∀ t ∈ db', scheduleWellFormed t) := by
  have hbadvalid : s.is_all_day = false → s.end_time ≤ s.start_time →
      validSchedule s = false := by
    intro h1 h2
    unfold validSchedule
    simp [h1, Nat.not_lt.mpr h2]
  refine ⟨fun hbad => ?_, fun hok => ?_, fun hok => ?_⟩
  · rw [createSchedule, updateSchedule, hbadvalid hbad.1 hbad.2]
    simp
  · rw [createSchedule] at hok
    by_cases hv : validSchedule s = true
    · rw [if_pos hv] at hok
      simp only [Except.ok.injEq] at hok
      subst hok
      intro t ht
      rcases List.mem_append.mp ht with ht | ht
      · rcases List.mem_map.mp ht with ⟨u, hu, rfl⟩
        exact setSymmetricRef_wellFormed _ _ u (hwf u hu)
      · rcases List.mem_singleton.mp ht with rfl
        exact validSchedule_wellFormed s hv
    · rw [if_neg hv] at hok
      exact absurd hok (by simp)
  · rw [updateSchedule] at hok
    by_cases hv : validSchedule s = true
    · rw [if_pos hv] at hok
      simp only [Except.ok.injEq] at hok
      subst hok
      intro t ht
      rcases List.mem_append.mp ht with ht | ht
      · rcases List.mem_map.mp ht with ⟨u, hu, rfl⟩
        exact setSymmetricRef_wellFormed _ _ u (hwf u (List.mem_of_mem_filter hu))
      · rcases List.mem_singleton.mp ht with rfl
        exact annotateConflicts_wellFormed s _ (validSchedule_wellFormed s hv)
    · rw [if_neg hv] at hok
      exact absurd hok (by simp)

/-- A concrete malformed schedule: 11:00-10:00, not all-day. -/
def badSched : Schedule := { schedA with id := 99, start_time := 660, end_time := 600 }

/-- C2 witness: the malformed schedule is rejected by both mutations on the
empty store. -/
theorem schedule_validation_witness :
    (∀ t ∈ ([] : List Schedule), scheduleWellFormed t)
    ∧ (badSched.is_all_day = false ∧ badSched.end_time ≤ badSched.start_time)
    ∧ (createSchedule badSched [] = Except.error AppError.validationError
        ∧ updateSchedule badSched [] = Except.error AppError.validationError) :=
  ⟨by simp, by decide,
    (schedule_validation badSched [] [] (by simp)).1 (by decide)⟩

/-- Modelled from the spec: an event of the external (Google) calendar, with
the provider revision used as the watermark source (§4.3, glossary). -/
structure ExternalEvent where
  event_id : Nat
  title : String
  start_time : Nat
  end_time : Nat
  updated_at : Nat
  revision : Nat
deriving DecidableEq, Repr

/-- Modelled from the spec: the external calendar as seen through its
interface (§6): a set of events plus a monotone revision counter. -/
structure GoogleCalendar where
  events : List ExternalEvent
  revision : Nat
deriving DecidableEq, Repr

/-- Modelled from the spec: `listChangesSince(watermark)` (§6): the events
whose revision is strictly newer than the watermark (all events when no
watermark exists yet). -/
def listChangesSince (cal : GoogleCalendar) (w : Option Nat) : List ExternalEvent :=
  match w with
  | none => cal.events
  | some v => cal.events.filter fun e => decide (v < e.revision)

/-- An external event carries the same semantic content as a schedule. -/
def scheduleMatchesEvent (s : Schedule) (e : ExternalEvent) : Bool :=
  s.title == e.title && s.start_time == e.start_time && s.end_time == e.end_time

/-- A fresh external event id. -/
def freshEventId (cal : GoogleCalendar) : Nat :=
  (cal.events.map fun e => e.event_id).foldr max 0 + 1

/-- Modelled from the spec: `createOrUpdateEvent(schedule) →
externalEventRef` (§6); a duplicate push of an unchanged schedule is
absorbed by detecting the unchanged external-event reference (§4.3), leaving
the calendar untouched. -/
def createOrUpdateEvent (cal : GoogleCalendar) (s : Schedule) :
    GoogleCalendar × Nat :=
  match s.google_event_id with
  | some eid =>
    match cal.events.find? fun e => e.event_id == eid with
    | some e =>
      if scheduleMatchesEvent s e then (cal, eid)
      else
        let r := cal.revision + 1
        ({ events := cal.events.map fun e2 =>
              if e2.event_id == eid then
                { e2 with title := s.title, start_time := s.start_time,
                          end_time := s.end_time, updated_at := s.updated_at,
                          revision := r }
              else e2,
            revision := r }, eid)
    | none =>
      let r := cal.revision + 1
      ({ events := cal.events ++
            [{ event_id := eid, title := s.title, start_time := s.start_time,
               end_time := s.end_time, updated_at := s.updated_at, revision := r }],
          revision := r }, eid)
  | none =>
    let eid := freshEventId cal
    let r := cal.revision + 1
    ({ events := cal.events ++
          [{ event_id := eid, title := s.title, start_time := s.start_time,
             end_time := s.end_time, updated_at := s.updated_at, revision := r }],
        revision := r }, eid)

/-- The `sync_direction` column of `calendar_sync_settings`
(schema.sql line 120). -/
inductive SyncDirection where
  | to_google
  | from_google
  | bidirectional
deriving DecidableEq, Repr

/-- A row of the `calendar_sync_settings` table (schema.sql lines 111-125):
the spec's Sync Link.  `user_id` is UNIQUE in the schema. -/
structure SyncLink where
  user_id : Nat
  google_account_email : String
  google_refresh_token : String
  google_calendar_id : String
  is_enabled : Bool
  sync_direction : SyncDirection
  last_synced_at : Option Nat
deriving DecidableEq, Repr

/-- Modelled from the spec: outcome of one network call to the external
system (§6, §7): success, transient network failure, or credential
failure. -/
inductive NetResult where
  | success
  | networkError
  | credentialError
deriving DecidableEq, Repr

/-- Modelled from the spec: applying an external event's state to a local
schedule (merge of an inbound change, §4.2): the semantic fields take the
external values and the schedule becomes `synced`. -/
def applyEvent (s : Schedule) (e : ExternalEvent) : Schedule :=
  { s with title := e.title, start_time := e.start_time, end_time := e.end_time,
           sync_status := SyncStatus.synced, last_synced_at := some e.revision,
           updated_at := e.updated_at }

/-- Modelled from the spec: merging an inbound change (§4.2): if the local
side was also modified (`pending_push`), the side with the later
modification timestamp wins; otherwise the external state is applied. -/
def mergeExternal (s : Schedule) (e : ExternalEvent) : Schedule :=
  if s.sync_status == SyncStatus.pending_push then
    if decide (s.updated_at < e.updated_at) then applyEvent s e else s
  else applyEvent s e

/-- Modelled from the spec: a schedule created by a successful inbound pull
of an external event unknown locally; its initial sync state is `synced`
(§4.2). -/
def scheduleFromExternal (uid : Nat) (e : ExternalEvent) : Schedule :=
  { id := e.event_id, child_id := 0, user_id := uid, title := e.title,
    schedule_type := ScheduleType.hospital, start_time := e.start_time,
    end_time := e.end_time, is_all_day := false, location_name := "",
    checklist := [], google_event_id := some e.event_id,
    sync_status := SyncStatus.synced, last_synced_at := some e.revision,
    has_conflict := false, conflict_with := [], reminder_minutes := [1440, 60],
    updated_at := e.updated_at }

/-- Modelled from the spec: the Sync State Machine push step for one
schedule (§4.2): on success the schedule records the returned external event
reference and becomes `synced`; on a network or credential failure it
becomes `sync_failed` with every other field untouched and no external state
assumed. -/
def pushSchedule (s : Schedule) (cal : GoogleCalendar) (net : NetResult) :
    Schedule × GoogleCalendar :=
  match net with
  | NetResult.success =>
    let r := createOrUpdateEvent cal s
    ({ s with google_event_id := some r.2, sync_status := SyncStatus.synced,
              last_synced_at := some r.1.revision }, r.1)
  | _ => ({ s with sync_status := SyncStatus.sync_failed }, cal)

/-- Modelled from the spec: the Sync State Machine pull step for one
schedule (§4.2): on success the inbound change is merged; on a network or
credential failure the schedule becomes `sync_failed` with every other field
untouched. -/
def pullSchedule (s : Schedule) (e : ExternalEvent) (net : NetResult) : Schedule :=
  match net with
  | NetResult.success => mergeExternal s e
  | _ => { s with sync_status := SyncStatus.sync_failed }

/-- Modelled from the spec: feeding one inbound external change into the
state machine (§4.3 step (a)): merge into the matching local schedule, or
create a local schedule in state `synced` when the event is unknown. -/
def applyExternalChange (uid : Nat) (ss : List Schedule) (e : ExternalEvent) :
    List Schedule :=
  if ss.any fun s => s.google_event_id == some e.event_id then
    ss.map fun s =>
      if s.google_event_id == some e.event_id then mergeExternal s e else s
  else ss ++ [scheduleFromExternal uid e]

/-- Modelled from the spec: the pull direction of a reconciliation pass
(§4.3 step (a)): every external change since the watermark is fed into the
state machine. -/
def pullPhase (uid : Nat) (ss : List Schedule) (cal : GoogleCalendar)
    (w : Option Nat) : List Schedule :=
  (listChangesSince cal w).foldl (applyExternalChange uid) ss

/-- Insertion into a list kept sorted by increasing `updated_at`. -/
def insertByUpdated (s : Schedule) : List Schedule → List Schedule
  | [] => [s]
  | t :: ts =>
    if s.updated_at ≤ t.updated_at then s :: t :: ts else t :: insertByUpdated s ts

/-- Sort by increasing last-modified time (oldest first, §4.3 step (b)). -/
def sortByUpdated (ss : List Schedule) : List Schedule :=
  ss.foldr insertByUpdated []

/-- The ids of the `pending_push` schedules, oldest modification first. -/
def pendingIdsOf (ss : List Schedule) : List Nat :=
  (sortByUpdated (ss.filter fun s => s.sync_status == SyncStatus.pending_push)).map
    fun s => s.id

/-- Modelled from the spec: pushing one pending schedule inside a pass
(§4.3 step (b)): `createOrUpdateEvent` is called and the schedule records
the returned reference, becoming `synced`. -/
def pushOne (acc : List Schedule × GoogleCalendar) (sid : Nat) :
    List Schedule × GoogleCalendar :=
  match acc.1.find? fun s => s.id == sid with
  | none => acc
  | some s =>
    let r := createOrUpdateEvent acc.2 s
    (acc.1.map fun t =>
        if t.id == sid then
          { t with google_event_id := some r.2, sync_status := SyncStatus.synced,
                   last_synced_at := some r.1.revision }
        else t,
      r.1)

/-- Modelled from the spec: the push direction of a reconciliation pass
(§4.3 step (b)): all locally `pending_push` schedules are pushed in
increasing order of last-modified time. -/
def pushPhase (ss : List Schedule) (cal : GoogleCalendar) :
    List Schedule × GoogleCalendar :=
  (pendingIdsOf ss).foldl pushOne (ss, cal)

/-- The state a Sync Engine pass operates on: the user's Sync Link, the
user's schedules and the external calendar. -/
structure SyncEngineState where
  link : SyncLink
  schedules : List Schedule
  cal : GoogleCalendar
deriving DecidableEq, Repr

/-- Modelled from the spec: the network outcomes a pass encounters, one per
direction (§5: network calls are the only failure points of a pass). -/
structure SyncEnv where
  pullNet : NetResult
  pushNet : NetResult
deriving DecidableEq, Repr

/-- The fully successful environment. -/
def okEnv : SyncEnv := { pullNet := NetResult.success, pushNet := NetResult.success }

/-- The schedules after the pull direction of a pass (skipped when
`sync_direction` is outbound-only, §4.3). -/
def pulledSchedules (st : SyncEngineState) : List Schedule :=
  if st.link.sync_direction != SyncDirection.to_google then
    pullPhase st.link.user_id st.schedules st.cal st.link.last_synced_at
  else st.schedules

/-- The schedules and calendar after the push direction of a pass (skipped
when `sync_direction` is inbound-only, §4.3). -/
def pushResult (st : SyncEngineState) : List Schedule × GoogleCalendar :=
  if st.link.sync_direction != SyncDirection.from_google then
    pushPhase (pulledSchedules st) st.cal
  else (pulledSchedules st, st.cal)

/-- Modelled from the spec: a schedule whose push failed becomes
`sync_failed` (§4.2), all other fields untouched. -/
def markPushFailed (s : Schedule) : Schedule :=
  if s.sync_status == SyncStatus.pending_push then
    { s with sync_status := SyncStatus.sync_failed }
  else s

/-- Modelled from the spec: one reconciliation pass of the Sync Engine
(§4.3): pull all external changes since the watermark, push all pending
schedules oldest-first, and persist the new watermark (the external
revision) only after both directions complete without error; a failed
direction aborts the pass with the watermark untouched.  The returned
boolean reports whether the pass completed. -/
def runPass (st : SyncEngineState) (env : SyncEnv) : SyncEngineState × Bool :=
  let doPull := st.link.sync_direction != SyncDirection.to_google
  let doPush := st.link.sync_direction != SyncDirection.from_google
  if doPull && !(env.pullNet == NetResult.success) then (st, false)
  else if doPush && !(env.pushNet == NetResult.success) then
    ({ st with schedules := (pulledSchedules st).map markPushFailed }, false)
  else
    ({ link := { st.link with last_synced_at := some (pushResult st).2.revision },
       schedules := (pushResult st).1, cal := (pushResult st).2 }, true)

/-- The external calendar's revision counter bounds every event revision. -/
def calWellFormed (cal : GoogleCalendar) : Prop :=
  ∀ e ∈ cal.events, e.revision ≤ cal.revision

/-- C3: every sync status is one of exactly the six states `unsynced`,
`pending_push`, `synced`, `pending_pull`, `conflicted`, `sync_failed` (and
the six are pairwise distinct); a schedule persisted by `createSchedule`
starts in `unsynced`, and a schedule created by a successful inbound pull
starts in `synced`. -/
theorem syncStatus_states (st : SyncStatus) (s : Schedule)
    (db db' : List Schedule) (uid : Nat) (e : ExternalEvent) :
    (st = SyncStatus.unsynced ∨ st = SyncStatus.pending_push
      ∨ st = SyncStatus.synced ∨ st = SyncStatus.pending_pull
      ∨ st = SyncStatus.conflicted ∨ st = SyncStatus.sync_failed)
    ∧ [SyncStatus.unsynced, SyncStatus.pending_push, SyncStatus.synced,
        SyncStatus.pending_pull, SyncStatus.conflicted,
        SyncStatus.sync_failed].Nodup
    ∧ (createSchedule s db = Except.ok db' →
        ∃ t, db'.getLast? = some t ∧ t.sync_status = SyncStatus.unsynced)
    ∧ (scheduleFromExternal uid e).sync_status = SyncStatus.synced := by
  refine ⟨by cases st <;> simp, by decide, ?_, rfl⟩
  intro hok
  rw [createSchedule] at hok
  by_cases hv : validSchedule s = true
  · rw [if_pos hv] at hok
    simp only [Except.ok.injEq] at hok
    subst hok
    refine ⟨{ annotateConflicts s
        (detectConflicts s (db.filter fun t => t.child_id == s.child_id)) with
        google_event_id := none, sync_status := SyncStatus.unsynced,
        last_synced_at := none }, ?_, rfl⟩
    rw [List.getLast?_concat]
  · rw [if_neg hv] at hok
    exact absurd hok (by simp)

/-- A concrete external event. -/
def evE : ExternalEvent :=
  { event_id := 5, title := "Checkup", start_time := 700, end_time := 760,
    updated_at := 40, revision := 1 }

/-- C3 witness: creating `schedA` locally persists it in state `unsynced`,
and a pull-created schedule is `synced`. -/
theorem syncStatus_states_witness :
    createSchedule schedA [] = Except.ok [schedA]
    ∧ (∃ t, ([schedA] : List Schedule).getLast? = some t
        ∧ t.sync_status = SyncStatus.unsynced)
    ∧ (scheduleFromExternal 20 evE).sync_status = SyncStatus.synced :=
  ⟨by rfl,
    (syncStatus_states SyncStatus.unsynced schedA [] [schedA] 20 evE).2.2.1
      (by rfl),
    (syncStatus_states SyncStatus.unsynced schedA [] [schedA] 20 evE).2.2.2⟩

/-- C4: the watermark (`last_synced_at` of the Sync Link) is atomic with
respect to a reconciliation pass: a failed pass leaves it exactly at its
prior value, and it can only differ from its prior value when the pass
completed with every executed direction succeeding. -/
theorem runPass_watermark_atomic (st : SyncEngineState) (env : SyncEnv) :
    ((runPass st env).2 = false →
        (runPass st env).1.link.last_synced_at = st.link.last_synced_at)
    ∧ ((runPass st env).1.link.last_synced_at ≠ st.link.last_synced_at →
        (runPass st env).2 = true
        ∧ (st.link.sync_direction ≠ SyncDirection.to_google →
            env.pullNet = NetResult.success)
        ∧ (st.link.sync_direction ≠ SyncDirection.from_google →
            env.pushNet = NetResult.success)) := by
  by_cases hp : ((st.link.sync_direction != SyncDirection.to_google)
      && !(env.pullNet == NetResult.success)) = true
  · refine ⟨fun _ => ?_, fun hne => absurd ?_ hne⟩ <;> simp [runPass, hp]
  · by_cases hq : ((st.link.sync_direction != SyncDirection.from_google)
        && !(env.pushNet == NetResult.success)) = true
    · refine ⟨fun _ => ?_, fun hne => absurd ?_ hne⟩ <;> simp [runPass, hp, hq]
    · have h2 : (runPass st env).2 = true := by simp [runPass, hp, hq]
      simp only [Bool.and_eq_true, bne_iff_ne, Bool.not_eq_true',
        beq_eq_false_iff_ne, not_and, ne_eq, not_not] at hp hq
      refine ⟨fun hfalse => absurd (h2.symm.trans hfalse) (by simp),
        fun _ => ⟨h2, fun hd => hp hd, fun hd => hq hd⟩⟩

/-- A concrete one-schedule engine state with a pending push. -/
def engineSt : SyncEngineState :=
  { link := { user_id := 20, google_account_email := "a@b.c",
              google_refresh_token := "tok", google_calendar_id := "primary",
              is_enabled := true, sync_direction := SyncDirection.bidirectional,
              last_synced_at := some 0 },
    schedules := [{ schedA with sync_status := SyncStatus.pending_push }],
    cal := { events := [], revision := 0 } }

/-- C4 witness: a pass whose pull direction hits a network error fails and
leaves the watermark exactly where it was. -/
theorem runPass_watermark_atomic_witness :
    (runPass engineSt
        { pullNet := NetResult.networkError, pushNet := NetResult.success }).2 = false
    ∧ (runPass engineSt
        { pullNet := NetResult.networkError,
          pushNet := NetResult.success }).1.link.last_synced_at
      = engineSt.link.last_synced_at :=
  ⟨by decide,
    (runPass_watermark_atomic engineSt
      { pullNet := NetResult.networkError, pushNet := NetResult.success }).1
      (by decide)⟩

/-- C5: a network or credential failure during the push or pull of a
schedule sends it to `sync_failed` while every local field keeps exactly its
pre-failure value, and no external calendar state is touched. -/
theorem syncFailure_preserves_schedule (s : Schedule) (cal : GoogleCalendar)
    (e : ExternalEvent) (net : NetResult) (h : net ≠ NetResult.success) :
    (pushSchedule s cal net).1 = { s with sync_status := SyncStatus.sync_failed }
    ∧ (pushSchedule s cal net).2 = cal
    ∧ pullSchedule s e net = { s with sync_status := SyncStatus.sync_failed }
    ∧ (pushSchedule s cal net).1.sync_status = SyncStatus.sync_failed
    ∧ (pushSchedule s cal net).1.title = s.title
    ∧ (pushSchedule s cal net).1.start_time = s.start_time
    ∧ (pushSchedule s cal net).1.end_time = s.end_time
    ∧ (pushSchedule s cal net).1.is_all_day = s.is_all_day
    ∧ (pushSchedule s cal net).1.google_event_id = s.google_event_id
    ∧ (pushSchedule s cal net).1.checklist = s.checklist
    ∧ (pushSchedule s cal net).1.reminder_minutes = s.reminder_minutes
    ∧ (pullSchedule s e net).sync_status = SyncStatus.sync_failed
    ∧ (pullSchedule s e net).title = s.title
    ∧ (pullSchedule s e net).start_time = s.start_time
    ∧ (pullSchedule s e net).end_time = s.end_time := by
  cases net with
  | success => exact absurd rfl h
  | networkError => exact ⟨rfl, rfl, rfl, rfl, rfl, rfl, rfl, rfl, rfl, rfl,
      rfl, rfl, rfl, rfl, rfl⟩
  | credentialError => exact ⟨rfl, rfl, rfl, rfl, rfl, rfl, rfl, rfl, rfl, rfl,
      rfl, rfl, rfl, rfl, rfl⟩

/-- C5 witness: a network error pushing `schedA` leaves all its fields as
they were and marks it `sync_failed`. -/
theorem syncFailure_preserves_schedule_witness :
    NetResult.networkError ≠ NetResult.success
    ∧ (pushSchedule schedA { events := [], revision := 0 }
        NetResult.networkError).1
      = { schedA with sync_status := SyncStatus.sync_failed }
    ∧ (pullSchedule schedA evE NetResult.networkError).start_time
      = schedA.start_time :=
  ⟨by decide,
    (syncFailure_preserves_schedule schedA { events := [], revision := 0 } evE
      NetResult.networkError (by decide)).1,
    (syncFailure_preserves_schedule schedA { events := [], revision := 0 } evE
      NetResult.networkError (by decide)).2.2.2.2.2.2.2.2.2.2.2.2.2.1⟩

theorem mem_insertByUpdated (s t : Schedule) (l : List Schedule) :
    t ∈ insertByUpdated s l ↔ t = s ∨ t ∈ l := by
  induction l with
  | nil => simp [insertByUpdated]
  | cons a l ih =>
    unfold insertByUpdated
    by_cases h : s.updated_at ≤ a.updated_at
    · simp [h, or_comm, or_left_comm, or_assoc]
    · simp only [h, if_false, List.mem_cons, ih]
      tauto

theorem mem_sortByUpdated (t : Schedule) (l : List Schedule) :
    t ∈ sortByUpdated l ↔ t ∈ l := by
  unfold sortByUpdated
  induction l with
  | nil => simp
  | cons a l ih => simp [mem_insertByUpdated, ih]

theorem createOrUpdateEvent_calWF (cal : GoogleCalendar) (s : Schedule)
    (h : calWellFormed cal) : calWellFormed (createOrUpdateEvent cal s).1 := by
  unfold createOrUpdateEvent
  split
  · split
    · split
      · exact h
      · intro e2 he2
        simp only [List.mem_map] at he2
        rcases he2 with ⟨e3, he3, rfl⟩
        split
        · exact le_refl _
        · exact Nat.le_succ_of_le (h e3 he3)
    · intro e2 he2
      simp only [List.mem_append, List.mem_singleton] at he2
      rcases he2 with he2 | rfl
      · exact Nat.le_succ_of_le (h e2 he2)
      · exact le_refl _
  · intro e2 he2
    simp only [List.mem_append, List.mem_singleton] at he2
    rcases he2 with he2 | rfl
    · exact Nat.le_succ_of_le (h e2 he2)
    · exact le_refl _

theorem pushOne_calWF (acc : List Schedule × GoogleCalendar) (sid : Nat)
    (h : calWellFormed acc.2) : calWellFormed (pushOne acc sid).2 := by
  unfold pushOne
  cases hf : acc.1.find? fun s => s.id == sid with
  | none => exact h
  | some s => exact createOrUpdateEvent_calWF acc.2 s h

theorem foldl_pushOne_calWF (sids : List Nat)
    (acc : List Schedule × GoogleCalendar) (h : calWellFormed acc.2) :
    calWellFormed (sids.foldl pushOne acc).2 := by
  induction sids generalizing acc with
  | nil => exact h
  | cons sid rest ih => exact ih _ (pushOne_calWF acc sid h)

theorem pushPhase_calWF (ss : List Schedule) (cal : GoogleCalendar)
    (h : calWellFormed cal) : calWellFormed (pushPhase ss cal).2 :=
  foldl_pushOne_calWF _ _ h

theorem foldl_pushOne_no_pending (sids : List Nat)
    (acc : List Schedule × GoogleCalendar)
    (h : ∀ t ∈ acc.1, t.sync_status = SyncStatus.pending_push → t.id ∈ sids) :
    ∀ t ∈ (sids.foldl pushOne acc).1,
      t.sync_status ≠ SyncStatus.pending_push := by
  induction sids generalizing acc with
  | nil =>
    intro t ht hp
    exact absurd (h t ht hp) (List.not_mem_nil _)
  | cons sid rest ih =>
    rw [List.foldl_cons]
    apply ih
    intro t ht hp
    unfold pushOne at ht
    cases hf : acc.1.find? fun s => s.id == sid with
    | none =>
      rw [hf] at ht
      have hid : ¬(t.id == sid) = true := List.find?_eq_none.mp hf t ht
      have := h t ht hp
      simp only [List.mem_cons] at this
      exact this.resolve_left (by simpa using hid)
    | some s =>
      rw [hf] at ht
      simp only [List.mem_map] at ht
      rcases ht with ⟨u, hu, rfl⟩
      by_cases hid : (u.id == sid) = true
      · rw [if_pos hid] at hp
        exact absurd hp (by simp)
      · rw [if_neg hid] at hp ⊢
        have := h u hu hp
        simp only [List.mem_cons] at this
        exact this.resolve_left (by simpa using hid)

theorem pushPhase_no_pending (ss : List Schedule) (cal : GoogleCalendar) :
    ∀ t ∈ (pushPhase ss cal).1,
      t.sync_status ≠ SyncStatus.pending_push := by
  apply foldl_pushOne_no_pending
  intro t ht hp
  unfold pendingIdsOf
  exact List.mem_map.mpr
    ⟨t, (mem_sortByUpdated t _).mpr (List.mem_filter.mpr ⟨ht, by simp [hp]⟩), rfl⟩

theorem pushPhase_of_no_pending (ss : List Schedule) (cal : GoogleCalendar)
    (h : ∀ t ∈ ss, t.sync_status ≠ SyncStatus.pending_push) :
    pushPhase ss cal = (ss, cal) := by
  unfold pushPhase pendingIdsOf
  have hnil : ss.filter (fun s => s.sync_status == SyncStatus.pending_push) = [] :=
    List.filter_eq_nil_iff.mpr fun t ht => by simpa using h t ht
  rw [hnil]
  rfl

theorem listChangesSince_current (cal : GoogleCalendar)
    (h : calWellFormed cal) :
    listChangesSince cal (some cal.revision) = [] := by
  unfold listChangesSince
  exact List.filter_eq_nil_iff.mpr fun e he => by
    simpa using Nat.not_lt.mpr (h e he)

theorem pullPhase_current (uid : Nat) (ss : List Schedule)
    (cal : GoogleCalendar) (h : calWellFormed cal) :
    pullPhase uid ss cal (some cal.revision) = ss := by
  unfold pullPhase
  rw [listChangesSince_current cal h]
  rfl

theorem runPass_okEnv (s : SyncEngineState) :
    runPass s okEnv =
      ({ link := { s.link with last_synced_at := some (pushResult s).2.revision },
         schedules := (pushResult s).1, cal := (pushResult s).2 }, true) := by
  simp [runPass, okEnv]

/-- C6: pushing the same schedules twice with no intervening local or
external modification is idempotent: a second fully successful
reconciliation pass is the identity, so the schedules (in particular every
external event reference) and the Sync Link's watermark are unchanged from
their values after the first pass. -/
theorem runPass_idempotent (st : SyncEngineState) (hcal : calWellFormed st.cal) :
    runPass (runPass st okEnv).1 okEnv = ((runPass st okEnv).1, true)
    ∧ (runPass (runPass st okEnv).1 okEnv).1.link.last_synced_at
        = (runPass st okEnv).1.link.last_synced_at
    ∧ (runPass (runPass st okEnv).1 okEnv).1.schedules.map
        (fun s => s.google_event_id)
      = (runPass st okEnv).1.schedules.map fun s => s.google_event_id := by
  obtain ⟨link, ss, cal⟩ := st
  have hmain : runPass (runPass ⟨link, ss, cal⟩ okEnv).1 okEnv
      = ((runPass ⟨link, ss, cal⟩ okEnv).1, true) := by
    rw [runPass_okEnv ⟨link, ss, cal⟩]
    set P := pushResult ⟨link, ss, cal⟩ with hP
    set L1 : SyncEngineState :=
      { link := { link with last_synced_at := some P.2.revision },
        schedules := P.1, cal := P.2 } with hL1
    have hcalP : calWellFormed P.2 := by
      rw [hP]
      unfold pushResult
      by_cases hd : (link.sync_direction != SyncDirection.from_google) = true
      · rw [if_pos hd]
        exact pushPhase_calWF _ _ hcal
      · rw [if_neg hd]
        exact hcal
    have hpull1 : pulledSchedules L1 = P.1 := by
      unfold pulledSchedules
      by_cases hd : (link.sync_direction != SyncDirection.to_google) = true
      · rw [hL1]
        rw [if_pos hd]
        exact pullPhase_current _ _ _ hcalP
      · rw [hL1, if_neg hd]
    have hpushr : pushResult L1 = (P.1, P.2) := by
      unfold pushResult
      by_cases hd : (link.sync_direction != SyncDirection.from_google) = true
      · have hnp : ∀ t ∈ P.1, t.sync_status ≠ SyncStatus.pending_push := by
          rw [hP]
          unfold pushResult
          rw [if_pos hd]
          exact pushPhase_no_pending _ _
        rw [show L1.link.sync_direction = link.sync_direction from rfl, if_pos hd,
          hpull1, show L1.cal = P.2 from rfl]
        exact pushPhase_of_no_pending _ _ hnp
      · rw [show L1.link.sync_direction = link.sync_direction from rfl, if_neg hd,
          hpull1]
    rw [runPass_okEnv L1, hpushr]
  exact ⟨hmain, by rw [hmain], by rw [hmain]⟩

/-- C6 witness: on the concrete engine state with one pending schedule and
an empty external calendar, the second successful pass is the identity. -/
theorem runPass_idempotent_witness :
    calWellFormed engineSt.cal
    ∧ runPass (runPass engineSt okEnv).1 okEnv
        = ((runPass engineSt okEnv).1, true) :=
  ⟨by simp [engineSt, calWellFormed],
    (runPass_idempotent engineSt (by simp [engineSt, calWellFormed])).1⟩

/-- A row of the `cancellation_alerts` table (schema.sql lines 158-182): the
spec's Watch Subscription, with its alert history watermark
(`last_alert_at`, `alert_count`). -/
structure CancellationAlert where
  id : Nat
  user_id : Nat
  child_id : Nat
  hospital_name : String
  department : String
  doctor_name : String
  is_watching : Bool
  preferred_dates : List Nat
  preferred_time_slots : List String
  last_alert_at : Option Nat
  alert_count : Nat
deriving DecidableEq, Repr

/-- Modelled from the spec: a candidate slot report from the hospital
source, carrying the provider-reported slot identifier and the time the
report arrived (§4.4, §6). -/
structure SlotReport where
  slot_time : Nat
  slot_id : Nat
  report_time : Nat
deriving DecidableEq, Repr

/-- Modelled from the spec: an Alert Event (§3): subscription reference,
discovered slot time, dedup key. -/
structure AlertEvent where
  subscription_id : Nat
  slot_time : Nat
  dedup_key : Nat × Nat × Nat
deriving DecidableEq, Repr

/-- Modelled from the spec: the dedup key, derived from (subscription, slot
time, provider-reported slot identifier) (§3). -/
def dedupKey (sub : CancellationAlert) (r : SlotReport) : Nat × Nat × Nat :=
  (sub.id, r.slot_time, r.slot_id)

/-- The time-of-day bucket of a slot, matching the
`preferred_time_slots` vocabulary of the schema (morning / afternoon /
evening). -/
def timeSlotLabel (t : Nat) : String :=
  if t % minutesPerDay < 720 then "morning"
  else if t % minutesPerDay < 1080 then "afternoon"
  else "evening"

/-- Modelled from the spec: the date and time-slot preference filter of a
Watch Subscription (§4.4); an empty preference list accepts everything. -/
def matchesFilter (sub : CancellationAlert) (slotTime : Nat) : Bool :=
  sub.is_watching
    && (sub.preferred_dates.isEmpty
        || sub.preferred_dates.contains (slotTime / minutesPerDay))
    && (sub.preferred_time_slots.isEmpty
        || sub.preferred_time_slots.contains (timeSlotLabel slotTime))

/-- The state of one Cancellation Watcher: its subscription row, the dedup
window entries (key, time first seen) and the emitted Alert Events. -/
structure WatcherState where
  sub : CancellationAlert
  seen : List ((Nat × Nat × Nat) × Nat)
  alerts : List AlertEvent
deriving DecidableEq, Repr

/-- Modelled from the spec: whether a dedup key was seen within the current
dedup window (§4.4). -/
def seenInWindow (seen : List ((Nat × Nat × Nat) × Nat))
    (key : Nat × Nat × Nat) (now window : Nat) : Bool :=
  seen.any fun p => p.1 == key && decide (now < p.2 + window)

/-- Modelled from the spec: processing one candidate slot report (§4.4):
filter by date/time-slot preference; compute the dedup key; discard if the
key was seen within the dedup window; otherwise emit an Alert Event, record
the key and increment the subscription's alert count and `last_alert_at`. -/
def processReport (window : Nat) (st : WatcherState) (r : SlotReport) :
    WatcherState :=
  if !(matchesFilter st.sub r.slot_time) then st
  else
    let key := dedupKey st.sub r
    if seenInWindow st.seen key r.report_time window then st
    else
      { sub := { st.sub with alert_count := st.sub.alert_count + 1,
                             last_alert_at := some r.report_time },
        seen := (key, r.report_time) :: st.seen,
        alerts := st.alerts ++ [{ subscription_id := st.sub.id,
                                  slot_time := r.slot_time, dedup_key := key }] }

/-- C7: two candidate slot reports with the same dedup key arriving within
the dedup window produce exactly one Alert Event: the first (matching,
unseen) report emits one alert and increments the alert count by exactly
one, and processing the second report leaves the watcher state completely
unchanged (it is discarded). -/
theorem dedup_exactly_once (window : Nat) (st : WatcherState)
    (r1 r2 : SlotReport)
    (hmatch : matchesFilter st.sub r1.slot_time = true)
    (hfresh : seenInWindow st.seen (dedupKey st.sub r1) r1.report_time window
      = false)
    (hkey : dedupKey st.sub r2 = dedupKey st.sub r1)
    (hwin : r2.report_time < r1.report_time + window) :
    processReport window (processReport window st r1) r2
        = processReport window st r1
    ∧ (processReport window st r1).alerts.length = st.alerts.length + 1
    ∧ (processReport window st r1).sub.alert_count = st.sub.alert_count + 1 := by
  have hslot : r2.slot_time = r1.slot_time := by
    have := congrArg (fun k => k.2.1) hkey
    simpa [dedupKey] using this
  have hst1 : processReport window st r1
      = { sub := { st.sub with alert_count := st.sub.alert_count + 1,
                                last_alert_at := some r1.report_time },
          seen := (dedupKey st.sub r1, r1.report_time) :: st.seen,
          alerts := st.alerts ++ [{ subscription_id := st.sub.id,
                                    slot_time := r1.slot_time,
                                    dedup_key := dedupKey st.sub r1 }] } := by
    simp [processReport, hmatch, hfresh]
  refine ⟨?_, by rw [hst1]; simp, by rw [hst1]⟩
  rw [hst1]
  unfold processReport
  have hm2 : matchesFilter
      { st.sub with alert_count := st.sub.alert_count + 1,
                    last_alert_at := some r1.report_time } r2.slot_time = true := by
    rw [hslot]
    simpa [matchesFilter] using hmatch
  have hk2 : dedupKey
      { st.sub with alert_count := st.sub.alert_count + 1,
                    last_alert_at := some r1.report_time } r2 = dedupKey st.sub r1 := by
    rw [← hkey]
    rfl
  have hseen2 : seenInWindow
      ((dedupKey st.sub r1, r1.report_time) :: st.seen)
      (dedupKey st.sub r1) r2.report_time window = true := by
    unfold seenInWindow
    simp [hwin]
  simp only [processReport, hm2, Bool.not_true, Bool.false_eq_true, if_false,
    hk2, hseen2, if_true]

/-- A concrete Watch Subscription with no date or time-slot restriction. -/
def watchSub : CancellationAlert :=
  { id := 7, user_id := 20, child_id := 10, hospital_name := "Hospital X",
    department := "Dept Y", doctor_name := "Dr. Kim", is_watching := true,
    preferred_dates := [], preferred_time_slots := [], last_alert_at := none,
    alert_count := 0 }

/-- A fresh watcher state for `watchSub`. -/
def watcherSt : WatcherState := { sub := watchSub, seen := [], alerts := [] }

/-- A slot report arriving at 09:00:01 (in seconds of the day). -/
def slotR1 : SlotReport := { slot_time := 700, slot_id := 42, report_time := 32401 }

/-- The same slot reported again at 09:00:05. -/
def slotR2 : SlotReport := { slot_time := 700, slot_id := 42, report_time := 32405 }

/-- C7 witness: the spec's example — the same slot reported at 09:00:01 and
09:00:05 within a 60-second dedup window yields exactly one Alert Event and
one alert-count increment. -/
theorem dedup_exactly_once_witness :
    (matchesFilter watcherSt.sub slotR1.slot_time = true
      ∧ seenInWindow watcherSt.seen (dedupKey watcherSt.sub slotR1)
          slotR1.report_time 60 = false
      ∧ dedupKey watcherSt.sub slotR2 = dedupKey watcherSt.sub slotR1
      ∧ slotR2.report_time < slotR1.report_time + 60)
    ∧ (processReport 60 (processReport 60 watcherSt slotR1) slotR2
          = processReport 60 watcherSt slotR1
        ∧ (processReport 60 watcherSt slotR1).alerts.length
            = watcherSt.alerts.length + 1
        ∧ (processReport 60 watcherSt slotR1).sub.alert_count
            = watcherSt.sub.alert_count + 1) :=
  ⟨⟨by decide, by decide, by decide, by decide⟩,
    dedup_exactly_once 60 watcherSt slotR1 slotR2 (by decide) (by decide)
      (by decide) (by decide)⟩

/-- The constraint and policy failures the storage layer can report. -/
inductive DbError where
  | uniqueViolation
  | rlsViolation
deriving DecidableEq, Repr

/-- Inserting into `calendar_sync_settings` under the UNIQUE constraint on
`user_id` (schema.sql line 113): the insert fails when a row for that user
already exists. -/
def insertCalendarSyncSettings (tbl : List SyncLink) (row : SyncLink) :
    Except DbError (List SyncLink) :=
  if tbl.any fun r => r.user_id == row.user_id then
    Except.error DbError.uniqueViolation
  else Except.ok (tbl ++ [row])

/-- C8: at most one Sync Link per user.  Starting from a table with pairwise
distinct `user_id`s, connecting an account for a user who already has a link
fails with a unique violation (no second row is created), and any successful
insert preserves the one-link-per-user invariant. -/
theorem syncLink_unique_per_user (tbl tbl' : List SyncLink) (row : SyncLink)
    (hinv : tbl.Pairwise fun a b => a.user_id ≠ b.user_id) :
    ((∃ r ∈ tbl, r.user_id = row.user_id) →
        insertCalendarSyncSettings tbl row
          = Except.error DbError.uniqueViolation)
    ∧ (insertCalendarSyncSettings tbl row = Except.ok tbl' →
        tbl'.Pairwise fun a b => a.user_id ≠ b.user_id) := by
  constructor
  · rintro ⟨r, hr, heq⟩
    unfold insertCalendarSyncSettings
    rw [if_pos (List.any_eq_true.mpr ⟨r, hr, by simp [heq]⟩)]
  · intro hok
    unfold insertCalendarSyncSettings at hok
    by_cases hany : (tbl.any fun r => r.user_id == row.user_id) = true
    · rw [if_pos hany] at hok
      exact absurd hok (by simp)
    · rw [if_neg hany] at hok
      simp only [Except.ok.injEq] at hok
      subst hok
      rw [List.pairwise_append]
      refine ⟨hinv, List.pairwise_singleton _ _, ?_⟩
      intro a ha b hb
      simp only [List.mem_singleton] at hb
      subst hb
      intro heq
      exact absurd (List.any_eq_true.mpr ⟨a, ha, by simp [heq]⟩) hany

/-- A concrete Sync Link row. -/
def linkU : SyncLink :=
  { user_id := 20, google_account_email := "a@b.c",
    google_refresh_token := "tok", google_calendar_id := "primary",
    is_enabled := true, sync_direction := SyncDirection.bidirectional,
    last_synced_at := none }

/-- C8 witness: connecting a second account for user 20 fails with a unique
violation. -/
theorem syncLink_unique_per_user_witness :
    ([linkU].Pairwise fun a b => a.user_id ≠ b.user_id)
    ∧ (∃ r ∈ [linkU],
        r.user_id = ({ linkU with google_account_email := "x@y.z" } : SyncLink).user_id)
    ∧ insertCalendarSyncSettings [linkU]
        { linkU with google_account_email := "x@y.z" }
      = Except.error DbError.uniqueViolation :=
  ⟨by decide, ⟨linkU, by decide, rfl⟩,
    (syncLink_unique_per_user [linkU] []
      { linkU with google_account_email := "x@y.z" } (by decide)).1
      ⟨linkU, by decide, rfl⟩⟩

/-- A stored row owned by a user: the shape shared by `care_schedules`,
`calendar_sync_settings` and `cancellation_alerts`, all of which carry a
`user_id` column and an RLS policy `auth.uid() = user_id`
(schema.sql lines 307-314). -/
structure RlsRow (α : Type) where
  user_id : Nat
  payload : α
deriving DecidableEq, Repr

/-- A SELECT under the RLS policy `USING (auth.uid() = user_id)`: only the
caller's rows are visible. -/
def rlsSelect {α : Type} (uid : Nat) (tbl : List (RlsRow α)) :
    List (RlsRow α) :=
  tbl.filter fun r => r.user_id == uid

/-- An UPDATE under the `FOR ALL USING (auth.uid() = user_id)` policy: only
the caller's rows are updated, and (per the implied WITH CHECK) an update
that would hand a row to another user aborts the statement. -/
def rlsUpdate {α : Type} (uid : Nat) (f : RlsRow α → RlsRow α)
    (tbl : List (RlsRow α)) : Except DbError (List (RlsRow α)) :=
  if tbl.all fun r => !(r.user_id == uid) || ((f r).user_id == uid) then
    Except.ok (tbl.map fun r => if r.user_id == uid then f r else r)
  else Except.error DbError.rlsViolation

/-- An INSERT under the policy: the new row must belong to the caller. -/
def rlsInsert {α : Type} (uid : Nat) (row : RlsRow α)
    (tbl : List (RlsRow α)) : Except DbError (List (RlsRow α)) :=
  if row.user_id == uid then Except.ok (tbl ++ [row])
  else Except.error DbError.rlsViolation

/-- A DELETE under the policy: only the caller's rows matching the predicate
are removed. -/
def rlsDelete {α : Type} (uid : Nat) (p : RlsRow α → Bool)
    (tbl : List (RlsRow α)) : List (RlsRow α) :=
  tbl.filter fun r => !(r.user_id == uid && p r)

theorem rlsUpdate_other_view {α : Type} (u v : Nat) (huv : u ≠ v)
    (f : RlsRow α → RlsRow α) (tbl : List (RlsRow α))
    (hall : (tbl.all fun r =>
      !(r.user_id == u) || ((f r).user_id == u)) = true) :
    rlsSelect v (tbl.map fun r => if r.user_id == u then f r else r)
      = rlsSelect v tbl := by
  induction tbl with
  | nil => rfl
  | cons r rest ih =>
    simp only [List.all_cons, Bool.and_eq_true] at hall
    have h1 := hall.1
    simp only [Bool.or_eq_true, Bool.not_eq_true', beq_eq_false_iff_ne,
      beq_iff_eq, ne_eq] at h1
    have htail := ih hall.2
    unfold rlsSelect at htail ⊢
    rw [List.map_cons, List.filter_cons, List.filter_cons]
    by_cases hr : r.user_id = u
    · have hfr : (f r).user_id = u := h1.resolve_left (not_not_intro hr)
      have hg : (if (r.user_id == u) = true then f r else r) = f r :=
        if_pos (by simp [hr])
      rw [hg, if_neg (show ¬((f r).user_id == v) = true by
            simp only [beq_iff_eq, hfr]; exact huv),
        if_neg (show ¬(r.user_id == v) = true by
            simp only [beq_iff_eq, hr]; exact huv)]
      exact htail
    · have hg : (if (r.user_id == u) = true then f r else r) = r :=
        if_neg (by simp [hr])
      rw [hg]
      by_cases hv2 : (r.user_id == v) = true
      · rw [if_pos hv2, if_pos hv2, htail]
      · rw [if_neg hv2, if_neg hv2]
        exact htail

theorem rlsDelete_other_view {α : Type} (u v : Nat) (huv : u ≠ v)
    (p : RlsRow α → Bool) (tbl : List (RlsRow α)) :
    rlsSelect v (rlsDelete u p tbl) = rlsSelect v tbl := by
  induction tbl with
  | nil => rfl
  | cons r rest ih =>
    unfold rlsDelete rlsSelect at ih ⊢
    rw [List.filter_cons]
    by_cases hv : (r.user_id == v) = true
    · have hcond : (!(r.user_id == u && p r)) = true := by
        have : (r.user_id == u) = false := by
          simp only [beq_eq_false_iff_ne, ne_eq]
          intro h
          exact huv ((beq_iff_eq.mp hv) ▸ h).symm
        simp [this]
      rw [if_pos hcond, List.filter_cons, if_pos hv, List.filter_cons,
        if_pos hv, ih]
    · rcases Bool.eq_false_or_eq_true (!(r.user_id == u && p r)) with hd | hd
      · rw [if_pos hd, List.filter_cons, if_neg hv, List.filter_cons,
          if_neg hv]
        exact ih
      · rw [if_neg (show ¬(!(r.user_id == u && p r)) = true by simp [hd]),
          ih, List.filter_cons, if_neg hv]

/-- C9: per-owner isolation under the row-level-security policies
`auth.uid() = user_id`.  A SELECT as user `u` returns only rows owned by
`u`; an UPDATE, INSERT or DELETE performed as `u` leaves any other user
`v`'s visible results exactly unchanged (two-run noninterference); and an
INSERT of a row not owned by the caller is rejected. -/
theorem rls_noninterference {α : Type} (u v : Nat) (huv : u ≠ v)
    (tbl tbl1 tbl2 : List (RlsRow α)) (f : RlsRow α → RlsRow α)
    (row : RlsRow α) (p : RlsRow α → Bool) :
    (∀ r ∈ rlsSelect u tbl, r.user_id = u)
    ∧ (rlsUpdate u f tbl = Except.ok tbl1 →
        rlsSelect v tbl1 = rlsSelect v tbl)
    ∧ (rlsInsert u row tbl = Except.ok tbl2 →
        rlsSelect v tbl2 = rlsSelect v tbl)
    ∧ rlsSelect v (rlsDelete u p tbl) = rlsSelect v tbl
    ∧ (row.user_id ≠ u →
        rlsInsert u row tbl = Except.error DbError.rlsViolation) := by
  refine ⟨?_, ?_, ?_, rlsDelete_other_view u v huv p tbl, ?_⟩
  · intro r hr
    have := List.mem_filter.mp hr
    simpa using this.2
  · intro hok
    unfold rlsUpdate at hok
    by_cases hall : (tbl.all fun r =>
        !(r.user_id == u) || ((f r).user_id == u)) = true
    · rw [if_pos hall] at hok
      simp only [Except.ok.injEq] at hok
      subst hok
      exact rlsUpdate_other_view u v huv f tbl hall
    · rw [if_neg hall] at hok
      exact absurd hok (by simp)
  · intro hok
    unfold rlsInsert at hok
    by_cases hu : (row.user_id == u) = true
    · rw [if_pos hu] at hok
      simp only [Except.ok.injEq] at hok
      subst hok
      unfold rlsSelect
      rw [List.filter_append]
      have : ([row].filter fun r => r.user_id == v) = [] := by
        simp only [List.filter_cons, List.filter_nil]
        rw [if_neg]
        simp only [beq_iff_eq]
        intro hv
        exact huv ((beq_iff_eq.mp hu).symm.trans hv)
      rw [this, List.append_nil]
    · rw [if_neg hu] at hok
      exact absurd hok (by simp)
  · intro hne
    unfold rlsInsert
    rw [if_neg (by simpa using hne)]

/-- C9 witness: with user 1's and user 2's rows stored, an update by user 1
leaves user 2's visible rows unchanged. -/
theorem rls_noninterference_witness :
    (1 : Nat) ≠ 2
    ∧ rlsUpdate 1 (fun r => { r with payload := r.payload + 1 })
        [({ user_id := 1, payload := 100 } : RlsRow Nat),
         { user_id := 2, payload := 200 }]
      = Except.ok [{ user_id := 1, payload := 101 }, { user_id := 2, payload := 200 }]
    ∧ rlsSelect 2
        [({ user_id := 1, payload := 101 } : RlsRow Nat),
         { user_id := 2, payload := 200 }]
      = rlsSelect 2
        [({ user_id := 1, payload := 100 } : RlsRow Nat),
         { user_id := 2, payload := 200 }] :=
  ⟨by decide, by rfl,
    (rls_noninterference 1 2 (by decide)
      [{ user_id := 1, payload := 100 }, { user_id := 2, payload := 200 }]
      [{ user_id := 1, payload := 101 }, { user_id := 2, payload := 200 }]
      [] (fun r => { r with payload := r.payload + 1 })
      { user_id := 1, payload := 100 } (fun _ => true)).2.1 (by rfl)⟩

/-- A service-worker fetch request: its URL and request mode
(`sw.js` line 28 reads `event.request.mode`). -/
structure SWRequest where
  url : String
  mode : String
deriving DecidableEq, Repr

/-- The single cache used by the service worker (`sw.js` line 2). -/
def CACHE_NAME : String := "hopelink-v1"

/-- The URLs cached at install time (`sw.js` lines 3-7, 10-16). -/
def urlsToCache : List String := ["./", "./index.html", "./manifest.json"]

/-- The fetch handler of `sw.js` lines 19-33: answer from the cache when the
request is cached; otherwise fetch from the network; if that fails, answer
with the cached `./index.html` for navigation requests and with no value
otherwise.  The returned boolean records whether a network fetch was
issued. -/
def handleFetch (cache : String → Option String)
    (network : SWRequest → Option String) (req : SWRequest) :
    Option String × Bool :=
  match cache req.url with
  | some r => (some r, false)
  | none =>
    match network req with
    | some r => (some r, true)
    | none =>
      if req.mode == "navigate" then (cache "./index.html", true)
      else (none, true)

/-- C10: the fetch handler answers a cached request with the cached response
and issues no network fetch; an uncached request whose network fetch fails
is answered with the cached `./index.html` when its mode is `navigate` and
with no value for any other mode (and `./index.html` is one of the URLs the
install step caches). -/
theorem handleFetch_correct (cache : String → Option String)
    (network : SWRequest → Option String) (req : SWRequest) :
    (∀ r, cache req.url = some r →
        handleFetch cache network req = (some r, false))
    ∧ (cache req.url = none → network req = none → req.mode = "navigate" →
        handleFetch cache network req = (cache "./index.html", true))
    ∧ (cache req.url = none → network req = none → req.mode ≠ "navigate" →
        handleFetch cache network req = (none, true))
    ∧ "./index.html" ∈ urlsToCache := by
  refine ⟨?_, ?_, ?_, by decide⟩
  · intro r hr
    unfold handleFetch
    rw [hr]
  · intro hc hn hm
    unfold handleFetch
    rw [hc, hn]
    simp [hm]
  · intro hc hn hm
    unfold handleFetch
    rw [hc, hn]
    simp [hm]

/-- The install-time cache content: exactly the `urlsToCache` entries. -/
def installedCache : String → Option String := fun u =>
  if urlsToCache.contains u then some u else none

/-- A navigation request for an uncached URL. -/
def navReq : SWRequest := { url := "./diary", mode := "navigate" }

/-- C10 witness: offline (network always failing), a navigation request for
an uncached URL is answered with the cached `./index.html`. -/
theorem handleFetch_correct_witness :
    installedCache navReq.url = none
    ∧ (fun _ : SWRequest => (none : Option String)) navReq = none
    ∧ navReq.mode = "navigate"
    ∧ handleFetch installedCache (fun _ => none) navReq
        = (installedCache "./index.html", true) :=
  ⟨by decide, rfl, rfl,
    (handleFetch_correct installedCache (fun _ => none) navReq).2.1
      (by decide) rfl rfl⟩

end HopeLink
